import Mathlib

/-
Verification of the configuration resolver in `helix-term/src/config.rs`.

The resolver `Config::load` combines two fallible configuration sources
(global and local) into one final `Config`.  The TOML syntax parser, the
editor-settings schema and the built-in default keymap are external
collaborators of that file and are taken as parameters here; the generic
value trees, the key-binding tries and their merge operations are modelled
concretely below.
-/

set_option autoImplicit false

namespace HelixConfig

/-- Error type of the external TOML deserializer, modelled as its message. -/
abbrev TomlError := String

/-- Error type of the I/O layer, modelled as its message. -/
abbrev IOError := String

/-- A mappable editor command; modelled by its command name, as the
command table itself is an external collaborator. -/
abbrev MappableCommand := String

/-- Modelled from the spec: a generic TOML-style value tree ("a
table-structured text format", with tables mapping string keys to nested
values or leaves).  Leaves beyond strings are included for generality. -/
inductive TomlValue : Type where
  | str (s : String)
  | int (n : Int)
  | boolean (b : Bool)
  | table (entries : List (String × TomlValue))

/-- First value stored under key `k` in an association list. -/
def lookupKey {α : Type} : List (String × α) → String → Option α
  | [], _ => none
  | (k0, v) :: rest, k => if k0 = k then some v else lookupKey rest k

/-- Replace the value of the first entry with key `k` by `x`. -/
def replaceFirst {α : Type} : List (String × α) → String → α → List (String × α)
  | [], _, _ => []
  | (k0, v0) :: rest, k, x =>
      if k0 = k then (k0, x) :: rest else (k0, v0) :: replaceFirst rest k x

/-- Insert-or-update for association lists: if `k` is present its first
entry becomes `f old`, otherwise `(k, v)` is appended.  This mirrors the
remove-then-insert loop of the map-based merges in the source. -/
def upsert {α : Type} (l : List (String × α)) (k : String) (v : α) (f : α → α) :
    List (String × α) :=
  match lookupKey l k with
  | some w => replaceFirst l k (f w)
  | none => l ++ [(k, v)]

/-- Fold the entries of `os` into `bs`: conflicting keys are combined with
`g old new`, fresh keys are appended.  Common skeleton of the keymap merge
and the settings-tree merge. -/
def mergeAssoc {α : Type} (g : α → α → α) :
    List (String × α) → List (String × α) → List (String × α)
  | bs, [] => bs
  | bs, (k, v) :: rest => mergeAssoc g (upsert bs k v (fun w => g w v)) rest

/-- Keys of the association list are pairwise distinct.  Every table that
comes out of the real TOML parser and every map-backed trie has this shape
by construction. -/
def keysDistinct {α : Type} : List (String × α) → Bool
  | [] => true
  | (k, _) :: rest => (lookupKey rest k).isNone && keysDistinct rest

mutual

/-- Well-formedness of a generic value tree (distinct keys at every table
level), the invariant the external TOML parser guarantees. -/
def TomlValue.wf : TomlValue → Bool
  | .str _ => true
  | .int _ => true
  | .boolean _ => true
  | .table es => keysDistinct es && TomlValue.wfList es

/-- Well-formedness of every value in a table's entry list. -/
def TomlValue.wfList : List (String × TomlValue) → Bool
  | [] => true
  | (_, v) :: rest => TomlValue.wf v && TomlValue.wfList rest

end

/-- Modelled from the spec: `helix_loader::merge_toml_values` (repository
code not under `src/`): a generic deep merge over two already-parsed value
trees, bounded in recursion depth; the right (local) value wins on
conflicts, tables merge key-by-key while depth budget remains, and any
non-table conflict is resolved by whole replacement with the right value. -/
def merge_toml_values : TomlValue → TomlValue → Nat → TomlValue
  | _, r, 0 => r
  | l, r, d + 1 =>
      match l, r with
      | .table lt, .table rt =>
          .table (mergeAssoc (fun a b => merge_toml_values a b d) lt rt)
      | _, _ => r

/-- A key-binding trie: a tree structure mapping key-chord strings to
commands or further subtrees (spec glossary).  The trie itself lives in
`helix-term/src/keymap.rs`, outside `src/`. -/
inductive KeyTrie : Type where
  | cmd (name : MappableCommand)
  | node (children : List (String × KeyTrie))

mutual

/-- Structural size of a trie, the fuel bound for the recursive merge. -/
def KeyTrie.size : KeyTrie → Nat
  | .cmd _ => 1
  | .node cs => KeyTrie.sizeList cs + 1

/-- Structural size of a trie node's entry list. -/
def KeyTrie.sizeList : List (String × KeyTrie) → Nat
  | [] => 0
  | (_, t) :: rest => KeyTrie.size t + KeyTrie.sizeList rest + 1

end

/-- Fuelled recursive merge of two key-binding tries. -/
def KeyTrie.mergeF : Nat → KeyTrie → KeyTrie → KeyTrie
  | 0, _, o => o
  | fuel + 1, b, o =>
      match b, o with
      | .node bs, .node os =>
          .node (mergeAssoc (fun w v => KeyTrie.mergeF fuel w v) bs os)
      | _, _ => o

/-- Modelled from the spec: the key-binding trie merge (deep merge:
conflicting subtables are merged rather than replaced, conflicting leaf
values are resolved by precedence of the override). -/
def KeyTrie.merge (b o : KeyTrie) : KeyTrie := KeyTrie.mergeF (KeyTrie.size o) b o

mutual

/-- Well-formedness of a trie (distinct keys at every node), the invariant
of the map-backed tries of the source. -/
def KeyTrie.wf : KeyTrie → Bool
  | .cmd _ => true
  | .node cs => keysDistinct cs && KeyTrie.wfList cs

/-- Well-formedness of every trie in a node's entry list. -/
def KeyTrie.wfList : List (String × KeyTrie) → Bool
  | [] => true
  | (_, t) :: rest => KeyTrie.wf t && KeyTrie.wfList rest

end

/-- Children list of a trie node (empty for a leaf command). -/
def KeyTrie.childrenOf : KeyTrie → List (String × KeyTrie)
  | .cmd _ => []
  | .node cs => cs

/-- The editor modes of `helix_view::document::Mode`. -/
inductive Mode : Type where
  | normal
  | select
  | insert
deriving DecidableEq

/-- The per-mode key-binding map `HashMap<Mode, KeyTrie>`: `Mode` is a
closed three-element enumeration, so the map is a record of optional
tries; a mode's absence means no binding tree for that mode. -/
structure Bindings : Type where
  normal : Option KeyTrie
  select : Option KeyTrie
  insert : Option KeyTrie

/-- Look up one mode's trie. -/
def Bindings.mode (b : Bindings) : Mode → Option KeyTrie
  | .normal => b.normal
  | .select => b.select
  | .insert => b.insert

/-- Merge one mode's override trie into the base: absent override keeps
the base, otherwise the override is merged into the base trie (an absent
base counts as an empty node, as with `entry(mode).or_default()`). -/
def mergeModeKeys : Option KeyTrie → Option KeyTrie → Option KeyTrie
  | b, none => b
  | b, some t => some (KeyTrie.merge (b.getD (KeyTrie.node [])) t)

/-- Modelled from the spec: `helix-term`'s `merge_keys` (repository code
not under `src/`): layer the override mapping onto the base, mode by mode,
recursively within each mode's trie. -/
def merge_keys (base ov : Bindings) : Bindings :=
  { normal := mergeModeKeys base.normal ov.normal
    select := mergeModeKeys base.select ov.select
    insert := mergeModeKeys base.insert ov.insert }

/-- `KeymapConfig` of `config.rs`: an optional supertab command plus the
flattened mode-to-trie mapping. -/
structure KeymapConfig : Type where
  supertab : Option MappableCommand
  bindings : Bindings

/-- `KeymapConfig::default()`: no supertab override and the built-in
default keymap `keymap::default()`, which is a parameter here since the
built-in keymap lives outside `src/`. -/
def KeymapConfig.mkDefault (keymapDefault : Bindings) : KeymapConfig :=
  { supertab := none, bindings := keymapDefault }

/-- `ConfigRaw` of `config.rs`: the strict-schema per-source parse result
with four optional top-level fields. -/
structure ConfigRaw : Type where
  theme : Option String
  icons : Option String
  keys : Option KeymapConfig
  editor : Option TomlValue

/-- `ConfigLoadError` of `config.rs`: a parse/schema failure carrying the
deserializer's error, or an I/O failure. -/
inductive ConfigLoadError : Type where
  | BadConfig (err : TomlError)
  | Error (err : IOError)
deriving DecidableEq

/-- Discriminator for the parse-failure variant. -/
def ConfigLoadError.isBadConfig : ConfigLoadError → Bool
  | .BadConfig _ => true
  | .Error _ => false

/-- Map the error of an `Except`, as `Result::map_err`. -/
def mapErr {ε ε' α : Type} (f : ε → ε') : Except ε α → Except ε' α
  | .ok a => .ok a
  | .error e => .error (f e)

/-- Deserialize an optional string field, as serde does for
`Option<String>`. -/
def getOptString (es : List (String × TomlValue)) (k : String) :
    Except TomlError (Option String) :=
  match lookupKey es k with
  | none => .ok none
  | some (.str s) => .ok (some s)
  | some _ => .error ("expected string for " ++ k)

mutual

/-- Modelled from the spec: deserialization of one mode's binding tree
("each subtable mapping key-chord strings to command identifiers or
nested subtrees"): strings become command leaves, tables become nodes. -/
def KeyTrie.fromToml : TomlValue → Except TomlError KeyTrie
  | .str s => .ok (.cmd s)
  | .table es => (KeyTrie.fromTomlList es).map .node
  | _ => .error "expected command or table"

/-- Deserialization of a binding table's entries into trie entries. -/
def KeyTrie.fromTomlList :
    List (String × TomlValue) → Except TomlError (List (String × KeyTrie))
  | [] => .ok []
  | (k, v) :: rest => do
      let t ← KeyTrie.fromToml v
      let ts ← KeyTrie.fromTomlList rest
      .ok ((k, t) :: ts)

end

/-- Deserialize one optional mode subtable of the `keys` table. -/
def lookupModeTrie (es : List (String × TomlValue)) (m : String) :
    Except TomlError (Option KeyTrie) :=
  match lookupKey es m with
  | none => .ok none
  | some v => (KeyTrie.fromToml v).map some

/-- The serde-derived deserializer of `KeymapConfig` (two-phase, per the
spec's design note): extract the known `supertab` key, then read the
remaining keys as the mode-to-trie mapping; a key that is neither
`supertab` nor a mode is a hard error. -/
def KeymapConfig.fromToml : TomlValue → Except TomlError KeymapConfig
  | .table es =>
      if es.all (fun p =>
          p.1 == "supertab" || p.1 == "normal" || p.1 == "select" || p.1 == "insert") then
        match lookupKey es "supertab" with
        | some (.str s) => do
            let n ← lookupModeTrie es "normal"
            let sel ← lookupModeTrie es "select"
            let i ← lookupModeTrie es "insert"
            .ok { supertab := some s, bindings := ⟨n, sel, i⟩ }
        | some _ => .error "supertab must be a command"
        | none => do
            let n ← lookupModeTrie es "normal"
            let sel ← lookupModeTrie es "select"
            let i ← lookupModeTrie es "insert"
            .ok { supertab := none, bindings := ⟨n, sel, i⟩ }
      else .error "unknown mode in keys"
  | _ => .error "keys must be a table"

/-- The serde-derived strict deserializer of `ConfigRaw`
(`deny_unknown_fields`): any top-level key other than `theme`, `icons`,
`keys`, `editor` is a hard error; the four known fields are optional. -/
def ConfigRaw.fromToml : TomlValue → Except TomlError ConfigRaw
  | .table es =>
      if es.all (fun p =>
          p.1 == "theme" || p.1 == "icons" || p.1 == "keys" || p.1 == "editor") then do
        let th ← getOptString es "theme"
        let ic ← getOptString es "icons"
        let ks ← match lookupKey es "keys" with
          | none => Except.ok none
          | some v => (KeymapConfig.fromToml v).map some
        Except.ok { theme := th, icons := ic, keys := ks, editor := lookupKey es "editor" }
      else .error "unknown top-level field"
  | _ => .error "config must be a table"

/-- The external editor-settings schema (`helix_view::editor::Config`),
consumed opaquely: its default value and its deserializer from a generic
value tree. -/
structure EditorSchema (E : Type) : Type where
  default : E
  tryInto : TomlValue → Except TomlError E

/-- The final resolved `Config` of `config.rs`, over the opaque
editor-settings type `E`. -/
structure Config (E : Type) : Type where
  theme : Option String
  icons : Option String
  keys : KeymapConfig
  editor : E

/-- One source's parse step: `src.and_then(|file|
toml::from_str::<ConfigRaw>(&file).map_err(BadConfig))`, with the
external syntax parser `fromStr` producing the generic value tree. -/
def parseSource (fromStr : String → Except TomlError TomlValue)
    (src : Except ConfigLoadError String) : Except ConfigLoadError ConfigRaw :=
  src.bind (fun file => mapErr ConfigLoadError.BadConfig
    ((fromStr file).bind ConfigRaw.fromToml))

/-- The `merge_keymap_configs` closure of `Config::load`: when the source
has a `keys` override, replace the supertab if the override sets one and
merge the override's mode-keyed binding trees into the accumulator. -/
def mergeKeymapConfigs (acc : KeymapConfig) (config : ConfigRaw) : KeymapConfig :=
  match config.keys with
  | none => acc
  | some kc =>
      { supertab :=
          match kc.supertab with
          | some st => some st
          | none => acc.supertab
        bindings := merge_keys acc.bindings kc.bindings }

/-- The single-successful-source arm of `Config::load`: theme and icons
pass through, the keys override is merged onto the defaults, the editor
tree is deserialized (schema default when absent). -/
def Config.loadSingle {E : Type} (scm : EditorSchema E) (keymapDefault : Bindings)
    (config : ConfigRaw) : Except ConfigLoadError (Config E) :=
  (match config.editor with
    | none => Except.ok scm.default
    | some v => mapErr ConfigLoadError.BadConfig (scm.tryInto v)).bind
    (fun editor => Except.ok
      { theme := config.theme
        icons := config.icons
        keys := mergeKeymapConfigs (KeymapConfig.mkDefault keymapDefault) config
        editor := editor })

/-- `Config::load` of `config.rs`.  `fromStr` is the external TOML syntax
parser, `scm` the external editor-settings schema and `keymapDefault` the
built-in default keymap.  The match arms are in the source's order; in
particular the parse-failure arm checks the local source's failure before
the global one, as the source's or-pattern does. -/
def Config.load {E : Type} (fromStr : String → Except TomlError TomlValue)
    (scm : EditorSchema E) (keymapDefault : Bindings)
    (global loc : Except ConfigLoadError String) : Except ConfigLoadError (Config E) :=
  match parseSource fromStr global, parseSource fromStr loc with
  | Except.ok g, Except.ok l =>
      (match g.editor, l.editor with
        | none, none => Except.ok scm.default
        | none, some v => mapErr ConfigLoadError.BadConfig (scm.tryInto v)
        | some v, none => mapErr ConfigLoadError.BadConfig (scm.tryInto v)
        | some gv, some lv =>
            mapErr ConfigLoadError.BadConfig
              (scm.tryInto (merge_toml_values gv lv 3))).bind
        (fun editor => Except.ok
          { theme := l.theme.or g.theme
            icons := l.icons.or g.icons
            keys := mergeKeymapConfigs
              (mergeKeymapConfigs (KeymapConfig.mkDefault keymapDefault) g) l
            editor := editor })
  | _, Except.error (ConfigLoadError.BadConfig err) =>
      Except.error (ConfigLoadError.BadConfig err)
  | Except.error (ConfigLoadError.BadConfig err), _ =>
      Except.error (ConfigLoadError.BadConfig err)
  | Except.ok config, Except.error _ => Config.loadSingle scm keymapDefault config
  | Except.error _, Except.ok config => Config.loadSingle scm keymapDefault config
  | Except.error err, Except.error _ => Except.error err

/-! Generic lemmas about association lists and the merge skeleton. -/

theorem lookupKey_append {α : Type} (l1 l2 : List (String × α)) (k : String) :
    lookupKey (l1 ++ l2) k =
      match lookupKey l1 k with
      | some v => some v
      | none => lookupKey l2 k := by
  induction l1 with
  | nil => simp [lookupKey]
  | cons hd tl ih =>
      obtain ⟨k0, v0⟩ := hd
      by_cases h : k0 = k <;> simp [lookupKey, h, ih]

theorem lookupKey_replaceFirst_self {α : Type} (l : List (String × α)) (k : String)
    (w x : α) (h : lookupKey l k = some w) :
    lookupKey (replaceFirst l k x) k = some x := by
  induction l with
  | nil => simp [lookupKey] at h
  | cons hd tl ih =>
      obtain ⟨k0, v0⟩ := hd
      by_cases hk : k0 = k
      · simp [lookupKey, replaceFirst, hk]
      · simp [lookupKey, replaceFirst, hk] at h ⊢
        exact ih h

theorem lookupKey_replaceFirst_ne {α : Type} (l : List (String × α)) (k k' : String)
    (x : α) (h : k' ≠ k) :
    lookupKey (replaceFirst l k x) k' = lookupKey l k' := by
  induction l with
  | nil => simp [replaceFirst]
  | cons hd tl ih =>
      obtain ⟨k0, v0⟩ := hd
      by_cases hk : k0 = k
      · subst hk
        have hne : ¬ k0 = k' := fun hc => h hc.symm
        simp [lookupKey, replaceFirst, hne]
      · by_cases hk' : k0 = k'
        · subst hk'
          simp [lookupKey, replaceFirst, hk]
        · simp [lookupKey, replaceFirst, hk, hk', ih]

theorem replaceFirst_replaceFirst_same {α : Type} (l : List (String × α)) (k : String)
    (x y : α) :
    replaceFirst (replaceFirst l k x) k y = replaceFirst l k y := by
  induction l with
  | nil => simp [replaceFirst]
  | cons hd tl ih =>
      obtain ⟨k0, v0⟩ := hd
      by_cases hk : k0 = k <;> simp [replaceFirst, hk, ih]

theorem replaceFirst_comm {α : Type} (l : List (String × α)) (k k' : String)
    (x y : α) (h : k ≠ k') :
    replaceFirst (replaceFirst l k x) k' y = replaceFirst (replaceFirst l k' y) k x := by
  induction l with
  | nil => simp [replaceFirst]
  | cons hd tl ih =>
      obtain ⟨k0, v0⟩ := hd
      by_cases hk : k0 = k
      · subst hk
        have hne : ¬ k0 = k' := fun hc => h hc
        simp [replaceFirst, hne]
      · by_cases hk' : k0 = k'
        · subst hk'
          simp [replaceFirst, hk]
        · simp [replaceFirst, hk, hk', ih]

theorem replaceFirst_append_left {α : Type} (l1 l2 : List (String × α)) (k : String)
    (x : α) (h : (lookupKey l1 k).isSome) :
    replaceFirst (l1 ++ l2) k x = replaceFirst l1 k x ++ l2 := by
  induction l1 with
  | nil => simp [lookupKey] at h
  | cons hd tl ih =>
      obtain ⟨k0, v0⟩ := hd
      by_cases hk : k0 = k
      · simp [replaceFirst, hk]
      · simp [lookupKey, hk] at h
        simp [replaceFirst, hk, ih h]

theorem replaceFirst_lookup_fix {α : Type} (l : List (String × α)) (k : String)
    (w : α) (h : lookupKey l k = some w) :
    replaceFirst l k w = l := by
  induction l with
  | nil => simp [replaceFirst]
  | cons hd tl ih =>
      obtain ⟨k0, v0⟩ := hd
      by_cases hk : k0 = k
      · simp [lookupKey, hk] at h
        simp [replaceFirst, hk, h]
      · simp [lookupKey, hk] at h
        simp [replaceFirst, hk, ih h]

theorem lookupKey_upsert_self {α : Type} (l : List (String × α)) (k : String)
    (v : α) (f : α → α) :
    (lookupKey (upsert l k v f) k).isSome := by
  unfold upsert
  cases h : lookupKey l k with
  | some w => simp [lookupKey_replaceFirst_self l k w (f w) h]
  | none =>
      rw [lookupKey_append]
      simp [h, lookupKey]

theorem lookupKey_upsert_ne {α : Type} (l : List (String × α)) (k k' : String)
    (v : α) (f : α → α) (h : k' ≠ k) :
    lookupKey (upsert l k v f) k' = lookupKey l k' := by
  unfold upsert
  cases hl : lookupKey l k with
  | some w => exact lookupKey_replaceFirst_ne l k k' (f w) h
  | none =>
      rw [lookupKey_append]
      cases hl' : lookupKey l k' with
      | some w => simp
      | none =>
          have hne : ¬ k = k' := fun hc => h hc.symm
          simp [lookupKey, hne]

theorem upsert_eq_found {α : Type} (l : List (String × α)) (k : String) (v w : α)
    (f : α → α) (hl : lookupKey l k = some w) :
    upsert l k v f = replaceFirst l k (f w) := by
  unfold upsert; rw [hl]

theorem upsert_eq_fresh {α : Type} (l : List (String × α)) (k : String) (v : α)
    (f : α → α) (hl : lookupKey l k = none) :
    upsert l k v f = l ++ [(k, v)] := by
  unfold upsert; rw [hl]

theorem keysDistinct_cons {α : Type} (k : String) (v : α) (tl : List (String × α)) :
    keysDistinct ((k, v) :: tl) = true ↔
      lookupKey tl k = none ∧ keysDistinct tl = true := by
  show ((lookupKey tl k).isNone && keysDistinct tl) = true ↔ _
  rw [Bool.and_eq_true, Option.isNone_iff_eq_none]

theorem upsert_congr {α : Type} (l : List (String × α)) (k : String) (v : α)
    (f1 f2 : α → α) (h : ∀ w, f1 w = f2 w) :
    upsert l k v f1 = upsert l k v f2 := by
  unfold upsert
  cases hl : lookupKey l k <;> simp [h]

theorem mergeAssoc_congr {α : Type} (g1 g2 : α → α → α)
    (os : List (String × α)) (h : ∀ p ∈ os, ∀ w, g1 w p.2 = g2 w p.2) :
    ∀ bs, mergeAssoc g1 bs os = mergeAssoc g2 bs os := by
  induction os with
  | nil => intro bs; rfl
  | cons hd tl ih =>
      obtain ⟨k, v⟩ := hd
      intro bs
      show mergeAssoc g1 (upsert bs k v (fun w => g1 w v)) tl =
        mergeAssoc g2 (upsert bs k v (fun w => g2 w v)) tl
      rw [upsert_congr bs k v _ _ (fun w => h (k, v) (by simp) w)]
      exact ih (fun p hp w => h p (by simp [hp]) w) _

theorem upsert_fix {α : Type} (l : List (String × α)) (k : String) (v w : α)
    (f : α → α) (hl : lookupKey l k = some w) (hf : f w = w) :
    upsert l k v f = l := by
  rw [upsert_eq_found l k v w f hl, hf]
  exact replaceFirst_lookup_fix l k w hl

theorem upsert_upsert_absorb {α : Type} (l : List (String × α)) (k : String) (v : α)
    (f : α → α) (hff : ∀ w, f (f w) = f w) (hfv : f v = v) :
    upsert (upsert l k v f) k v f = upsert l k v f := by
  cases hl : lookupKey l k with
  | some w =>
      rw [upsert_eq_found l k v w f hl]
      have h2 : lookupKey (replaceFirst l k (f w)) k = some (f w) :=
        lookupKey_replaceFirst_self l k w (f w) hl
      rw [upsert_eq_found _ k v (f w) f h2, hff w, replaceFirst_replaceFirst_same]
  | none =>
      rw [upsert_eq_fresh l k v f hl]
      have h2 : lookupKey (l ++ [(k, v)]) k = some v := by
        rw [lookupKey_append]; simp [hl, lookupKey]
      rw [upsert_eq_found _ k v v f h2, hfv]
      exact replaceFirst_lookup_fix _ k v h2

theorem upsert_comm {α : Type} (l : List (String × α)) (k k1 : String)
    (v v1 : α) (f f1 : α → α) (hne : k ≠ k1) (hk : (lookupKey l k).isSome) :
    upsert (upsert l k1 v1 f1) k v f = upsert (upsert l k v f) k1 v1 f1 := by
  obtain ⟨w, hw⟩ : ∃ w, lookupKey l k = some w := by
    cases hl : lookupKey l k with
    | some w => exact ⟨w, rfl⟩
    | none => rw [hl] at hk; simp at hk
  cases hl1 : lookupKey l k1 with
  | some w1 =>
      have e3 : lookupKey (replaceFirst l k1 (f1 w1)) k = some w := by
        rw [lookupKey_replaceFirst_ne l k1 k (f1 w1) hne]; exact hw
      have e4 : lookupKey (replaceFirst l k (f w)) k1 = some w1 := by
        rw [lookupKey_replaceFirst_ne l k k1 (f w) (Ne.symm hne)]; exact hl1
      rw [upsert_eq_found l k1 v1 w1 f1 hl1, upsert_eq_found l k v w f hw,
        upsert_eq_found _ k v w f e3, upsert_eq_found _ k1 v1 w1 f1 e4]
      exact replaceFirst_comm l k1 k (f1 w1) (f w) (Ne.symm hne)
  | none =>
      have e3 : lookupKey (l ++ [(k1, v1)]) k = some w := by
        rw [lookupKey_append]; simp [hw]
      have e4 : lookupKey (replaceFirst l k (f w)) k1 = none := by
        rw [lookupKey_replaceFirst_ne l k k1 (f w) (Ne.symm hne)]; exact hl1
      rw [upsert_eq_fresh l k1 v1 f1 hl1, upsert_eq_found l k v w f hw,
        upsert_eq_found _ k v w f e3, upsert_eq_fresh _ k1 v1 f1 e4]
      exact replaceFirst_append_left l [(k1, v1)] k (f w) (by simp [hw])

theorem upsert_mergeAssoc_comm {α : Type} (g : α → α → α) (os : List (String × α))
    (k : String) (v : α) (f : α → α) (hos : lookupKey os k = none) :
    ∀ l, (lookupKey l k).isSome →
      upsert (mergeAssoc g l os) k v f = mergeAssoc g (upsert l k v f) os := by
  induction os with
  | nil => intro l _; rfl
  | cons hd tl ih =>
      obtain ⟨k1, v1⟩ := hd
      intro l hl
      have hne : ¬ k1 = k := by
        intro hc
        simp [lookupKey, hc] at hos
      have htl : lookupKey tl k = none := by
        simpa [lookupKey, hne] using hos
      show upsert (mergeAssoc g (upsert l k1 v1 (fun w => g w v1)) tl) k v f =
        mergeAssoc g (upsert (upsert l k v f) k1 v1 (fun w => g w v1)) tl
      rw [ih htl (upsert l k1 v1 (fun w => g w v1))
        (by rw [lookupKey_upsert_ne l k1 k v1 _ (fun hc => hne hc.symm)]; exact hl)]
      rw [upsert_comm l k k1 v v1 f (fun w => g w v1) (fun hc => hne hc.symm) hl]

theorem mergeAssoc_absorb {α : Type} (g : α → α → α) (os : List (String × α))
    (hdist : keysDistinct os = true)
    (hcond : ∀ p ∈ os, (∀ w, g (g w p.2) p.2 = g w p.2) ∧ g p.2 p.2 = p.2) :
    ∀ bs, mergeAssoc g (mergeAssoc g bs os) os = mergeAssoc g bs os := by
  induction os with
  | nil => intro bs; rfl
  | cons hd tl ih =>
      obtain ⟨k, v⟩ := hd
      intro bs
      have hlk : lookupKey tl k = none := ((keysDistinct_cons k v tl).mp hdist).1
      have hdtl : keysDistinct tl = true := ((keysDistinct_cons k v tl).mp hdist).2
      set f : α → α := fun w => g w v with hf
      show mergeAssoc g (upsert (mergeAssoc g (upsert bs k v f) tl) k v f) tl =
        mergeAssoc g (upsert bs k v f) tl
      rw [upsert_mergeAssoc_comm g tl k v f hlk (upsert bs k v f)
        (lookupKey_upsert_self bs k v f)]
      rw [upsert_upsert_absorb bs k v f
        (fun w => (hcond (k, v) (by simp)).1 w) ((hcond (k, v) (by simp)).2)]
      exact ih hdtl (fun p hp => hcond p (by simp [hp])) (upsert bs k v f)

theorem mergeAssoc_fix {α : Type} (g : α → α → α) (os : List (String × α)) :
    ∀ bs, (∀ p ∈ os, lookupKey bs p.1 = some p.2 ∧ g p.2 p.2 = p.2) →
      mergeAssoc g bs os = bs := by
  induction os with
  | nil => intro bs _; rfl
  | cons hd tl ih =>
      obtain ⟨k, v⟩ := hd
      intro bs hcond
      show mergeAssoc g (upsert bs k v (fun w => g w v)) tl = bs
      have h1 : upsert bs k v (fun w => g w v) = bs :=
        upsert_fix bs k v v _ (hcond (k, v) (by simp)).1 (hcond (k, v) (by simp)).2
      rw [h1]
      exact ih bs (fun p hp => hcond p (by simp [hp]))

theorem lookupKey_ne_none_of_mem {α : Type} (l : List (String × α)) (p : String × α)
    (hp : p ∈ l) : lookupKey l p.1 ≠ none := by
  induction l with
  | nil => simp at hp
  | cons hd tl ih =>
      obtain ⟨k0, v0⟩ := hd
      rcases List.mem_cons.mp hp with h | h
      · subst h; simp [lookupKey]
      · by_cases hk : k0 = p.1
        · simp [lookupKey, hk]
        · simpa [lookupKey, hk] using ih h

theorem lookupKey_of_mem_distinct {α : Type} (l : List (String × α))
    (hdist : keysDistinct l = true) (p : String × α) (hp : p ∈ l) :
    lookupKey l p.1 = some p.2 := by
  induction l with
  | nil => simp at hp
  | cons hd tl ih =>
      obtain ⟨k0, v0⟩ := hd
      have hdtl : keysDistinct tl = true := ((keysDistinct_cons k0 v0 tl).mp hdist).2
      have hnone : lookupKey tl k0 = none := ((keysDistinct_cons k0 v0 tl).mp hdist).1
      rcases List.mem_cons.mp hp with h | h
      · subst h; simp [lookupKey]
      · by_cases hk : k0 = p.1
        · exfalso
          apply lookupKey_ne_none_of_mem tl p h
          rw [← hk]
          exact hnone
        · simpa [lookupKey, hk] using ih hdtl h

theorem mergeAssoc_lookup_of_none {α : Type} (g : α → α → α) (os : List (String × α))
    (k : String) (hos : lookupKey os k = none) :
    ∀ bs, lookupKey (mergeAssoc g bs os) k = lookupKey bs k := by
  induction os with
  | nil => intro bs; rfl
  | cons hd tl ih =>
      obtain ⟨k1, v1⟩ := hd
      intro bs
      have hne : ¬ k1 = k := by
        intro hc
        simp [lookupKey, hc] at hos
      have htl : lookupKey tl k = none := by
        simpa [lookupKey, hne] using hos
      show lookupKey (mergeAssoc g (upsert bs k1 v1 (fun w => g w v1)) tl) k = lookupKey bs k
      rw [ih htl]
      exact lookupKey_upsert_ne bs k1 k v1 _ (fun hc => hne hc.symm)

/-! Equations and fuel adequacy for the trie merge. -/

theorem KeyTrie.size_cmd (c : MappableCommand) : KeyTrie.size (.cmd c) = 1 := by
  simp [KeyTrie.size]

theorem KeyTrie.size_node (cs : List (String × KeyTrie)) :
    KeyTrie.size (.node cs) = KeyTrie.sizeList cs + 1 := by
  simp [KeyTrie.size]

theorem KeyTrie.sizeList_cons (k : String) (t : KeyTrie) (rest : List (String × KeyTrie)) :
    KeyTrie.sizeList ((k, t) :: rest) = KeyTrie.size t + KeyTrie.sizeList rest + 1 := by
  simp [KeyTrie.sizeList]

theorem KeyTrie.size_pos (t : KeyTrie) : 1 ≤ KeyTrie.size t := by
  cases t with
  | cmd c => rw [KeyTrie.size_cmd]
  | node cs => rw [KeyTrie.size_node]; omega

theorem KeyTrie.size_le_sizeList (cs : List (String × KeyTrie)) (p : String × KeyTrie)
    (hp : p ∈ cs) : KeyTrie.size p.2 ≤ KeyTrie.sizeList cs := by
  induction cs with
  | nil => simp at hp
  | cons hd tl ih =>
      obtain ⟨k, t⟩ := hd
      rw [KeyTrie.sizeList_cons]
      rcases List.mem_cons.mp hp with h | h
      · subst h
        change KeyTrie.size t ≤ _
        omega
      · have := ih h; omega

theorem KeyTrie.mergeF_zero (b o : KeyTrie) : KeyTrie.mergeF 0 b o = o := rfl

theorem KeyTrie.mergeF_succ_cmd_right (f : Nat) (b : KeyTrie) (c : MappableCommand) :
    KeyTrie.mergeF (f + 1) b (.cmd c) = .cmd c := by
  cases b <;> rfl

theorem KeyTrie.mergeF_succ_cmd_left (f : Nat) (c : MappableCommand) (o : KeyTrie) :
    KeyTrie.mergeF (f + 1) (.cmd c) o = o := by
  cases o <;> rfl

theorem KeyTrie.mergeF_succ_node_node (f : Nat) (bs os : List (String × KeyTrie)) :
    KeyTrie.mergeF (f + 1) (.node bs) (.node os) =
      .node (mergeAssoc (fun w v => KeyTrie.mergeF f w v) bs os) := rfl

theorem KeyTrie.mergeF_cmd_right (f : Nat) (b : KeyTrie) (c : MappableCommand) :
    KeyTrie.mergeF f b (.cmd c) = .cmd c := by
  cases f with
  | zero => rfl
  | succ f => exact KeyTrie.mergeF_succ_cmd_right f b c

theorem KeyTrie.merge_cmd_right (b : KeyTrie) (c : MappableCommand) :
    KeyTrie.merge b (.cmd c) = .cmd c :=
  KeyTrie.mergeF_cmd_right _ b c

theorem KeyTrie.merge_cmd_left (c : MappableCommand) (o : KeyTrie) :
    KeyTrie.merge (.cmd c) o = o := by
  cases o with
  | cmd d => exact KeyTrie.merge_cmd_right _ d
  | node os =>
      show KeyTrie.mergeF (KeyTrie.size (.node os)) (.cmd c) (.node os) = .node os
      rw [KeyTrie.size_node]
      exact KeyTrie.mergeF_succ_cmd_left _ c (.node os)

theorem KeyTrie.mergeF_adequate :
    ∀ (fuel : Nat) (b o : KeyTrie), KeyTrie.size o ≤ fuel →
      KeyTrie.mergeF fuel b o = KeyTrie.merge b o := by
  intro fuel
  induction fuel using Nat.strong_induction_on with
  | _ fuel IH =>
      intro b o hs
      cases fuel with
      | zero =>
          exact absurd hs (by have := KeyTrie.size_pos o; omega)
      | succ f =>
          cases o with
          | cmd c =>
              rw [KeyTrie.mergeF_succ_cmd_right, KeyTrie.merge_cmd_right]
          | node os =>
              cases b with
              | cmd c =>
                  rw [KeyTrie.mergeF_succ_cmd_left, KeyTrie.merge_cmd_left]
              | node bs =>
                  rw [KeyTrie.mergeF_succ_node_node]
                  show _ = KeyTrie.mergeF (KeyTrie.size (.node os)) (.node bs) (.node os)
                  rw [KeyTrie.size_node, KeyTrie.mergeF_succ_node_node]
                  have hle : KeyTrie.sizeList os ≤ f := by
                    rw [KeyTrie.size_node] at hs; omega
                  have h1 : ∀ p ∈ os, ∀ w,
                      KeyTrie.mergeF f w p.2 = KeyTrie.merge w p.2 := by
                    intro p hp w
                    exact IH f (by omega) w p.2
                      (le_trans (KeyTrie.size_le_sizeList os p hp) hle)
                  have h2 : ∀ p ∈ os, ∀ w,
                      KeyTrie.mergeF (KeyTrie.sizeList os) w p.2 = KeyTrie.merge w p.2 := by
                    intro p hp w
                    exact IH (KeyTrie.sizeList os) (by omega) w p.2
                      (KeyTrie.size_le_sizeList os p hp)
                  rw [mergeAssoc_congr _ KeyTrie.merge os h1 bs,
                    mergeAssoc_congr _ KeyTrie.merge os h2 bs]

theorem KeyTrie.merge_node_node (bs os : List (String × KeyTrie)) :
    KeyTrie.merge (.node bs) (.node os) =
      .node (mergeAssoc KeyTrie.merge bs os) := by
  show KeyTrie.mergeF (KeyTrie.size (.node os)) (.node bs) (.node os) = _
  rw [KeyTrie.size_node, KeyTrie.mergeF_succ_node_node]
  rw [mergeAssoc_congr _ KeyTrie.merge os
    (fun p hp w => KeyTrie.mergeF_adequate _ w p.2 (KeyTrie.size_le_sizeList os p hp)) bs]

/-! Well-formedness unfolding for tries. -/

theorem KeyTrie.wfList_forall (cs : List (String × KeyTrie)) :
    KeyTrie.wfList cs = true ↔ ∀ p ∈ cs, KeyTrie.wf p.2 = true := by
  induction cs with
  | nil => simp [KeyTrie.wfList]
  | cons hd tl ih =>
      obtain ⟨k, t⟩ := hd
      show (KeyTrie.wf t && KeyTrie.wfList tl) = true ↔ _
      rw [Bool.and_eq_true, ih]
      constructor
      · rintro ⟨h1, h2⟩ p hp
        rcases List.mem_cons.mp hp with h | h
        · subst h; exact h1
        · exact h2 p h
      · intro h
        exact ⟨h (k, t) (by simp), fun p hp => h p (by simp [hp])⟩

theorem KeyTrie.wf_node_iff (cs : List (String × KeyTrie)) :
    KeyTrie.wf (.node cs) = true ↔
      keysDistinct cs = true ∧ ∀ p ∈ cs, KeyTrie.wf p.2 = true := by
  show (keysDistinct cs && KeyTrie.wfList cs) = true ↔ _
  rw [Bool.and_eq_true, KeyTrie.wfList_forall]

/-! Self-merge and absorption for well-formed tries. -/

theorem KeyTrie.merge_main :
    ∀ (n : Nat) (o : KeyTrie), KeyTrie.size o ≤ n → KeyTrie.wf o = true →
      KeyTrie.merge o o = o ∧
        ∀ b, KeyTrie.merge (KeyTrie.merge b o) o = KeyTrie.merge b o := by
  intro n
  induction n using Nat.strong_induction_on with
  | _ n IH =>
      intro o hs hwf
      cases o with
      | cmd c =>
          refine ⟨KeyTrie.merge_cmd_right _ c, fun b => ?_⟩
          rw [KeyTrie.merge_cmd_right, KeyTrie.merge_cmd_right]
      | node os =>
          obtain ⟨hdist, hch⟩ := (KeyTrie.wf_node_iff os).mp hwf
          have hszos : KeyTrie.sizeList os < n := by
            rw [KeyTrie.size_node] at hs; omega
          have hchild : ∀ p ∈ os,
              (∀ w, KeyTrie.merge (KeyTrie.merge w p.2) p.2 = KeyTrie.merge w p.2) ∧
                KeyTrie.merge p.2 p.2 = p.2 := by
            intro p hp
            have hsz : KeyTrie.size p.2 ≤ KeyTrie.sizeList os :=
              KeyTrie.size_le_sizeList os p hp
            have hres := IH (KeyTrie.size p.2) (by omega) p.2 le_rfl (hch p hp)
            exact ⟨hres.2, hres.1⟩
          have hself : KeyTrie.merge (.node os) (.node os) = .node os := by
            rw [KeyTrie.merge_node_node]
            congr 1
            exact mergeAssoc_fix KeyTrie.merge os os
              (fun p hp => ⟨lookupKey_of_mem_distinct os hdist p hp, (hchild p hp).2⟩)
          refine ⟨hself, fun b => ?_⟩
          cases b with
          | cmd c => rw [KeyTrie.merge_cmd_left, hself]
          | node bs =>
              rw [KeyTrie.merge_node_node, KeyTrie.merge_node_node]
              congr 1
              exact mergeAssoc_absorb KeyTrie.merge os hdist
                (fun p hp => hchild p hp) bs

theorem KeyTrie.merge_absorb (o : KeyTrie) (hwf : KeyTrie.wf o = true) (b : KeyTrie) :
    KeyTrie.merge (KeyTrie.merge b o) o = KeyTrie.merge b o :=
  (KeyTrie.merge_main (KeyTrie.size o) o le_rfl hwf).2 b

theorem KeyTrie.merge_self (o : KeyTrie) (hwf : KeyTrie.wf o = true) :
    KeyTrie.merge o o = o :=
  (KeyTrie.merge_main (KeyTrie.size o) o le_rfl hwf).1

/-! Self-merge for well-formed generic value trees. -/

theorem TomlValue.wfList_forall_iff (es : List (String × TomlValue)) :
    TomlValue.wfList es = true ↔ ∀ p ∈ es, TomlValue.wf p.2 = true := by
  induction es with
  | nil => simp [TomlValue.wfList]
  | cons hd tl ih =>
      obtain ⟨k, v⟩ := hd
      show (TomlValue.wf v && TomlValue.wfList tl) = true ↔ _
      rw [Bool.and_eq_true, ih]
      constructor
      · rintro ⟨h1, h2⟩ p hp
        rcases List.mem_cons.mp hp with h | h
        · subst h; exact h1
        · exact h2 p h
      · intro h
        exact ⟨h (k, v) (by simp), fun p hp => h p (by simp [hp])⟩

theorem TomlValue.wf_table_iff (es : List (String × TomlValue)) :
    TomlValue.wf (.table es) = true ↔
      keysDistinct es = true ∧ ∀ p ∈ es, TomlValue.wf p.2 = true := by
  show (keysDistinct es && TomlValue.wfList es) = true ↔ _
  rw [Bool.and_eq_true, TomlValue.wfList_forall_iff]

theorem merge_toml_values_self :
    ∀ (d : Nat) (v : TomlValue), TomlValue.wf v = true → merge_toml_values v v d = v := by
  intro d
  induction d with
  | zero => intro v _; rfl
  | succ d ih =>
      intro v hwf
      cases v with
      | str s => rfl
      | int n => rfl
      | boolean b => rfl
      | table es =>
          obtain ⟨hdist, hch⟩ := (TomlValue.wf_table_iff es).mp hwf
          show TomlValue.table
            (mergeAssoc (fun a b => merge_toml_values a b d) es es) = .table es
          congr 1
          exact mergeAssoc_fix _ es es
            (fun p hp => ⟨lookupKey_of_mem_distinct es hdist p hp, ih p.2 (hch p hp)⟩)

/-! Mode-level merge lemmas. -/

/-- Well-formedness of an optional trie. -/
def optWf : Option KeyTrie → Bool
  | none => true
  | some t => KeyTrie.wf t

/-- Well-formedness of all three mode tries of a bindings record. -/
def Bindings.wfAll (b : Bindings) : Bool :=
  optWf b.normal && optWf b.select && optWf b.insert

theorem mergeModeKeys_none (b : Option KeyTrie) : mergeModeKeys b none = b := rfl

theorem mergeModeKeys_isSome (b o : Option KeyTrie) (hb : b.isSome) :
    (mergeModeKeys b o).isSome := by
  cases o with
  | none => exact hb
  | some t => simp [mergeModeKeys]

theorem mergeModeKeys_absorb (b o : Option KeyTrie) (hwf : optWf o = true) :
    mergeModeKeys (mergeModeKeys b o) o = mergeModeKeys b o := by
  cases o with
  | none => rfl
  | some t =>
      show some (KeyTrie.merge ((some (KeyTrie.merge (b.getD (KeyTrie.node [])) t)).getD
        (KeyTrie.node [])) t) = _
      rw [Option.getD_some]
      rw [KeyTrie.merge_absorb t hwf (b.getD (KeyTrie.node []))]
      rfl

theorem merge_keys_absorb (base ov : Bindings) (hwf : ov.wfAll = true) :
    merge_keys (merge_keys base ov) ov = merge_keys base ov := by
  have h1 : optWf ov.normal = true ∧ optWf ov.select = true ∧ optWf ov.insert = true := by
    have h0 := hwf
    unfold Bindings.wfAll at h0
    rw [Bool.and_eq_true, Bool.and_eq_true] at h0
    exact ⟨h0.1.1, h0.1.2, h0.2⟩
  unfold merge_keys
  simp only
  rw [mergeModeKeys_absorb _ _ h1.1, mergeModeKeys_absorb _ _ h1.2.1,
    mergeModeKeys_absorb _ _ h1.2.2]

/-! Arm equations for the resolver, one per branch of the source's match. -/

theorem Config.load_ok_ok {E : Type} (fromStr : String → Except TomlError TomlValue)
    (scm : EditorSchema E) (kd : Bindings) (g l : Except ConfigLoadError String)
    (rg rl : ConfigRaw)
    (hg : parseSource fromStr g = Except.ok rg)
    (hl : parseSource fromStr l = Except.ok rl) :
    Config.load fromStr scm kd g l =
      (match rg.editor, rl.editor with
        | none, none => Except.ok scm.default
        | none, some v => mapErr ConfigLoadError.BadConfig (scm.tryInto v)
        | some v, none => mapErr ConfigLoadError.BadConfig (scm.tryInto v)
        | some gv, some lv =>
            mapErr ConfigLoadError.BadConfig
              (scm.tryInto (merge_toml_values gv lv 3))).bind
        (fun editor => Except.ok
          { theme := rl.theme.or rg.theme
            icons := rl.icons.or rg.icons
            keys := mergeKeymapConfigs
              (mergeKeymapConfigs (KeymapConfig.mkDefault kd) rg) rl
            editor := editor }) := by
  unfold Config.load
  rw [hg, hl]

theorem Config.load_local_bad {E : Type} (fromStr : String → Except TomlError TomlValue)
    (scm : EditorSchema E) (kd : Bindings) (g l : Except ConfigLoadError String)
    (m : TomlError) (hl : parseSource fromStr l = Except.error (ConfigLoadError.BadConfig m)) :
    Config.load fromStr scm kd g l = Except.error (ConfigLoadError.BadConfig m) := by
  unfold Config.load
  rw [hl]
  cases hG : parseSource fromStr g with
  | ok rg => rfl
  | error e => cases e <;> rfl

theorem Config.load_global_bad {E : Type} (fromStr : String → Except TomlError TomlValue)
    (scm : EditorSchema E) (kd : Bindings) (g l : Except ConfigLoadError String)
    (m : TomlError) (hg : parseSource fromStr g = Except.error (ConfigLoadError.BadConfig m))
    (hl : ∀ m2, parseSource fromStr l ≠ Except.error (ConfigLoadError.BadConfig m2)) :
    Config.load fromStr scm kd g l = Except.error (ConfigLoadError.BadConfig m) := by
  unfold Config.load
  rw [hg]
  cases hL : parseSource fromStr l with
  | ok rl => rfl
  | error e =>
      cases e with
      | BadConfig m2 => exact absurd hL (hl m2)
      | Error m2 => rfl

theorem Config.load_single_global {E : Type} (fromStr : String → Except TomlError TomlValue)
    (scm : EditorSchema E) (kd : Bindings) (g l : Except ConfigLoadError String)
    (rg : ConfigRaw) (m : IOError)
    (hg : parseSource fromStr g = Except.ok rg)
    (hl : parseSource fromStr l = Except.error (ConfigLoadError.Error m)) :
    Config.load fromStr scm kd g l = Config.loadSingle scm kd rg := by
  unfold Config.load
  rw [hg, hl]

theorem Config.load_single_local {E : Type} (fromStr : String → Except TomlError TomlValue)
    (scm : EditorSchema E) (kd : Bindings) (g l : Except ConfigLoadError String)
    (rl : ConfigRaw) (m : IOError)
    (hg : parseSource fromStr g = Except.error (ConfigLoadError.Error m))
    (hl : parseSource fromStr l = Except.ok rl) :
    Config.load fromStr scm kd g l = Config.loadSingle scm kd rl := by
  unfold Config.load
  rw [hg, hl]

theorem Config.load_both_ioerr {E : Type} (fromStr : String → Except TomlError TomlValue)
    (scm : EditorSchema E) (kd : Bindings) (g l : Except ConfigLoadError String)
    (m1 m2 : IOError)
    (hg : parseSource fromStr g = Except.error (ConfigLoadError.Error m1))
    (hl : parseSource fromStr l = Except.error (ConfigLoadError.Error m2)) :
    Config.load fromStr scm kd g l = Except.error (ConfigLoadError.Error m1) := by
  unfold Config.load
  rw [hg, hl]

/-! Concrete instances used by witnesses. -/

/-- A trivial editor-settings schema over `Unit`. -/
def unitSchema : EditorSchema Unit := ⟨(), fun _ => Except.ok ()⟩

/-- A syntax parser that fails on every input. -/
def fsFail : String → Except TomlError TomlValue := fun _ => Except.error "bad toml"

/-- A syntax parser that parses every input as the empty table. -/
def fsEmpty : String → Except TomlError TomlValue := fun _ => Except.ok (.table [])

/-- An empty default keymap record. -/
def kd0 : Bindings := ⟨none, none, none⟩

/-! Claim C1. -/

/-- C1, counterexample: with the global source an `IOFailure` and the
local source a `ParseFailure`, both sources are failures, yet `Config.load`
returns the local `ParseFailure`, not the global source's failure — the
claim that the global failure is returned for failures of any kind is
false on the code. -/
theorem claim_C1_counterexample :
    Config.load fsFail unitSchema kd0
        (Except.error (ConfigLoadError.Error "global io")) (Except.ok "bad") =
      Except.error (ConfigLoadError.BadConfig "bad toml") ∧
    ConfigLoadError.BadConfig "bad toml" ≠ ConfigLoadError.Error "global io" :=
  ⟨rfl, by decide⟩

/-- C1, amended: when both sources fail, `Config::load` returns the local
failure when that failure is a `ParseFailure`, and otherwise returns the
global source's failure (in particular, two `IOFailure`s yield the global
one verbatim). -/
theorem claim_C1_amended {E : Type} (fromStr : String → Except TomlError TomlValue)
    (scm : EditorSchema E) (kd : Bindings) (g l : Except ConfigLoadError String)
    (eg el : ConfigLoadError)
    (hg : parseSource fromStr g = Except.error eg)
    (hl : parseSource fromStr l = Except.error el) :
    Config.load fromStr scm kd g l =
      Except.error (if el.isBadConfig then el else eg) := by
  cases el with
  | BadConfig m =>
      simp only [ConfigLoadError.isBadConfig, if_true]
      exact Config.load_local_bad fromStr scm kd g l m hl
  | Error m =>
      simp only [ConfigLoadError.isBadConfig, Bool.false_eq_true, if_false]
      cases eg with
      | BadConfig mg =>
          refine Config.load_global_bad fromStr scm kd g l mg hg ?_
          intro m2 hc
          have h2 : Except.error (ConfigLoadError.Error m) =
              (Except.error (ConfigLoadError.BadConfig m2) : Except ConfigLoadError ConfigRaw) := by
            rw [← hl, hc]
          simp at h2
      | Error mg => exact Config.load_both_ioerr fromStr scm kd g l mg m hg hl

/-- C1, witness for the amended statement at concrete inputs. -/
theorem claim_C1_amended_witness :
    parseSource fsFail (Except.error (ConfigLoadError.Error "global io")) =
        Except.error (ConfigLoadError.Error "global io") ∧
    parseSource fsFail (Except.ok "bad") =
        Except.error (ConfigLoadError.BadConfig "bad toml") ∧
    Config.load fsFail unitSchema kd0
        (Except.error (ConfigLoadError.Error "global io")) (Except.ok "bad") =
      Except.error
        (if (ConfigLoadError.BadConfig "bad toml").isBadConfig then
          ConfigLoadError.BadConfig "bad toml" else ConfigLoadError.Error "global io") :=
  ⟨rfl, rfl, claim_C1_amended fsFail unitSchema kd0 _ _ _ _ rfl rfl⟩

/-! Claim C2. -/

/-- C2: a `ParseFailure` of either source is returned whenever the other
source is not itself a `ParseFailure` — whether the other source parsed
successfully or had an I/O failure; in particular a global `ParseFailure`
beats a local success. -/
theorem claim_C2_parse_failure_priority {E : Type}
    (fromStr : String → Except TomlError TomlValue) (scm : EditorSchema E)
    (kd : Bindings) (g l : Except ConfigLoadError String) :
    (∀ e, parseSource fromStr g = Except.error (ConfigLoadError.BadConfig e) →
      (∀ e2, parseSource fromStr l ≠ Except.error (ConfigLoadError.BadConfig e2)) →
      Config.load fromStr scm kd g l = Except.error (ConfigLoadError.BadConfig e)) ∧
    (∀ e, parseSource fromStr l = Except.error (ConfigLoadError.BadConfig e) →
      (∀ e2, parseSource fromStr g ≠ Except.error (ConfigLoadError.BadConfig e2)) →
      Config.load fromStr scm kd g l = Except.error (ConfigLoadError.BadConfig e)) := by
  constructor
  · intro e hg hl
    exact Config.load_global_bad fromStr scm kd g l e hg hl
  · intro e hl _
    exact Config.load_local_bad fromStr scm kd g l e hl

/-- C2, witness: a global `ParseFailure` is returned in preference to a
local success. -/
theorem claim_C2_witness :
    Config.load fsFail unitSchema kd0 (Except.ok "bad")
        (Except.error (ConfigLoadError.Error "local io")) =
      Except.error (ConfigLoadError.BadConfig "bad toml") :=
  (claim_C2_parse_failure_priority fsFail unitSchema kd0 (Except.ok "bad")
      (Except.error (ConfigLoadError.Error "local io"))).1 "bad toml" rfl
    (by
      intro e2 h
      have h2 : Except.error (ConfigLoadError.Error "local io") =
          (Except.error (ConfigLoadError.BadConfig e2) : Except ConfigLoadError ConfigRaw) := h
      simp at h2)

/-- Parsing passes an input-side failure through unchanged. -/
theorem parseSource_error (fromStr : String → Except TomlError TomlValue)
    (e : ConfigLoadError) :
    parseSource fromStr (Except.error e) = Except.error e := rfl

/-! Claim C10. -/

/-- C10: with one successfully parsing source and one `IOFailure`, the
resolver's result does not depend on which position (global or local) the
successful source occupies. -/
theorem claim_C10_position_symmetric {E : Type}
    (fromStr : String → Except TomlError TomlValue) (scm : EditorSchema E)
    (kd : Bindings) (s : String) (e : IOError) (r : ConfigRaw)
    (hr : parseSource fromStr (Except.ok s) = Except.ok r) :
    Config.load fromStr scm kd (Except.ok s) (Except.error (ConfigLoadError.Error e)) =
      Config.load fromStr scm kd (Except.error (ConfigLoadError.Error e)) (Except.ok s) := by
  rw [Config.load_single_global fromStr scm kd _ _ r e hr
      (parseSource_error fromStr (ConfigLoadError.Error e)),
    Config.load_single_local fromStr scm kd _ _ r e
      (parseSource_error fromStr (ConfigLoadError.Error e)) hr]

/-- C10, witness at a concrete parseable source. -/
theorem claim_C10_witness :
    parseSource fsEmpty (Except.ok "x") = Except.ok ⟨none, none, none, none⟩ ∧
    Config.load fsEmpty unitSchema kd0 (Except.ok "x")
        (Except.error (ConfigLoadError.Error "io")) =
      Config.load fsEmpty unitSchema kd0
        (Except.error (ConfigLoadError.Error "io")) (Except.ok "x") :=
  ⟨rfl, claim_C10_position_symmetric fsEmpty unitSchema kd0 "x" "io"
    ⟨none, none, none, none⟩ rfl⟩

/-! Inversion of the dual-success arm. -/

theorem except_bind_ok {ε α β : Type} (x : Except ε α) (f : α → Except ε β) (b : β)
    (h : x.bind f = Except.ok b) : ∃ a, x = Except.ok a ∧ f a = Except.ok b := by
  cases x with
  | ok a => exact ⟨a, rfl, h⟩
  | error e => simp [Except.bind] at h

theorem Config.load_ok_ok_inv {E : Type} (fromStr : String → Except TomlError TomlValue)
    (scm : EditorSchema E) (kd : Bindings) (g l : Except ConfigLoadError String)
    (rg rl : ConfigRaw) (cfg : Config E)
    (hg : parseSource fromStr g = Except.ok rg)
    (hl : parseSource fromStr l = Except.ok rl)
    (hres : Config.load fromStr scm kd g l = Except.ok cfg) :
    cfg.theme = rl.theme.or rg.theme ∧ cfg.icons = rl.icons.or rg.icons ∧
      cfg.keys = mergeKeymapConfigs
        (mergeKeymapConfigs (KeymapConfig.mkDefault kd) rg) rl := by
  rw [Config.load_ok_ok fromStr scm kd g l rg rl hg hl] at hres
  obtain ⟨ed, _, hf⟩ := except_bind_ok _ _ cfg hres
  injection hf with hf
  subst hf
  exact ⟨rfl, rfl, rfl⟩

/-! Claim C5. -/

/-- C5: when both sources parse, the resolved theme is the local theme
when present, otherwise the global theme (absent only when both are), and
independently the same holds for icons. -/
theorem claim_C5_theme_icons_precedence {E : Type}
    (fromStr : String → Except TomlError TomlValue) (scm : EditorSchema E)
    (kd : Bindings) (g l : Except ConfigLoadError String) (rg rl : ConfigRaw)
    (cfg : Config E)
    (hg : parseSource fromStr g = Except.ok rg)
    (hl : parseSource fromStr l = Except.ok rl)
    (hres : Config.load fromStr scm kd g l = Except.ok cfg) :
    (∀ t, rl.theme = some t → cfg.theme = some t) ∧
    (rl.theme = none → cfg.theme = rg.theme) ∧
    (∀ t, rl.icons = some t → cfg.icons = some t) ∧
    (rl.icons = none → cfg.icons = rg.icons) := by
  obtain ⟨hth, hic, _⟩ :=
    Config.load_ok_ok_inv fromStr scm kd g l rg rl cfg hg hl hres
  refine ⟨fun t ht => ?_, fun ht => ?_, fun t ht => ?_, fun ht => ?_⟩
  · rw [hth, ht]; rfl
  · rw [hth, ht]; rfl
  · rw [hic, ht]; rfl
  · rw [hic, ht]; rfl

/-- A syntax parser for the theme/icons scenario: the global source sets
theme "a" and icons "ga", the local source sets theme "b" only. -/
def fsTheme : String → Except TomlError TomlValue := fun s =>
  if s = "g" then Except.ok (.table [("theme", .str "a"), ("icons", .str "ga")])
  else if s = "l" then Except.ok (.table [("theme", .str "b")])
  else Except.error "bad toml"

/-- C5, witness: local theme "b" beats global theme "a"; global icons
"ga" survive the local source omitting icons. -/
theorem claim_C5_witness :
    parseSource fsTheme (Except.ok "g") =
        Except.ok ⟨some "a", some "ga", none, none⟩ ∧
    Config.load fsTheme unitSchema kd0 (Except.ok "g") (Except.ok "l") =
        Except.ok ⟨some "b", some "ga", KeymapConfig.mkDefault kd0, ()⟩ ∧
    (∀ t, (some "b" : Option String) = some t →
      (Config.mk (some "b") (some "ga") (KeymapConfig.mkDefault kd0) () : Config Unit).theme = some t) ∧
    ((none : Option String) = none →
      (Config.mk (some "b") (some "ga") (KeymapConfig.mkDefault kd0) () : Config Unit).icons =
        (⟨some "a", some "ga", none, none⟩ : ConfigRaw).icons) := by
  refine ⟨rfl, rfl, ?_, ?_⟩
  · exact fun t ht => (claim_C5_theme_icons_precedence fsTheme unitSchema kd0
      (Except.ok "g") (Except.ok "l") ⟨some "a", some "ga", none, none⟩
      ⟨some "b", none, none, none⟩ _ rfl rfl rfl).1 t ht
  · intro h
    exact (claim_C5_theme_icons_precedence fsTheme unitSchema kd0
      (Except.ok "g") (Except.ok "l") ⟨some "a", some "ga", none, none⟩
      ⟨some "b", none, none, none⟩ _ rfl rfl rfl).2.2.2 h

/-! Claim C4. -/

/-- The bindings override carried by a raw source (empty when `keys` is
absent). -/
def keysBindingsOf (r : ConfigRaw) : Bindings :=
  match r.keys with
  | none => ⟨none, none, none⟩
  | some kc => kc.bindings

theorem merge_keys_empty_override (b : Bindings) :
    merge_keys b ⟨none, none, none⟩ = b := rfl

theorem mergeKeymapConfigs_mkDefault (kd : Bindings) (r : ConfigRaw) :
    mergeKeymapConfigs (KeymapConfig.mkDefault kd) r =
      ⟨r.keys.bind KeymapConfig.supertab, merge_keys kd (keysBindingsOf r)⟩ := by
  cases hk : r.keys with
  | none =>
      simp [mergeKeymapConfigs, keysBindingsOf, hk, KeymapConfig.mkDefault,
        merge_keys_empty_override]
  | some kc =>
      cases hs : kc.supertab <;>
        simp [mergeKeymapConfigs, keysBindingsOf, hk, hs, KeymapConfig.mkDefault]

theorem Config.loadSingle_inv {E : Type} (scm : EditorSchema E) (kd : Bindings)
    (r : ConfigRaw) (cfg : Config E)
    (hres : Config.loadSingle scm kd r = Except.ok cfg) :
    cfg.theme = r.theme ∧ cfg.icons = r.icons ∧
      cfg.keys = mergeKeymapConfigs (KeymapConfig.mkDefault kd) r := by
  obtain ⟨ed, _, hf⟩ := except_bind_ok _ _ cfg hres
  injection hf with hf
  subst hf
  exact ⟨rfl, rfl, rfl⟩

theorem Config.loadSingle_editor_none {E : Type} (scm : EditorSchema E) (kd : Bindings)
    (r : ConfigRaw) (h : r.editor = none) :
    Config.loadSingle scm kd r = Except.ok
      { theme := r.theme, icons := r.icons
        keys := mergeKeymapConfigs (KeymapConfig.mkDefault kd) r
        editor := scm.default } := by
  simp [Config.loadSingle, h, Except.bind]

theorem Config.loadSingle_editor_some_ok {E : Type} (scm : EditorSchema E)
    (kd : Bindings) (r : ConfigRaw) (v : TomlValue) (ed : E)
    (h : r.editor = some v) (ht : scm.tryInto v = Except.ok ed) :
    Config.loadSingle scm kd r = Except.ok
      { theme := r.theme, icons := r.icons
        keys := mergeKeymapConfigs (KeymapConfig.mkDefault kd) r
        editor := ed } := by
  simp [Config.loadSingle, h, ht, mapErr, Except.bind]

theorem Config.loadSingle_editor_some_err {E : Type} (scm : EditorSchema E)
    (kd : Bindings) (r : ConfigRaw) (v : TomlValue) (e2 : TomlError)
    (h : r.editor = some v) (ht : scm.tryInto v = Except.error e2) :
    Config.loadSingle scm kd r = Except.error (ConfigLoadError.BadConfig e2) := by
  simp [Config.loadSingle, h, ht, mapErr, Except.bind]

/-- C4: when exactly one source parses and the other failure is an
`IOFailure`, the resolver uses only the successful source: theme and icons
pass through, the keys override is merged onto the built-in defaults with
unmentioned modes untouched, and the editor tree is deserialized with the
schema default used when absent. -/
theorem claim_C4_single_source {E : Type}
    (fromStr : String → Except TomlError TomlValue) (scm : EditorSchema E)
    (kd : Bindings) (g l : Except ConfigLoadError String) (r : ConfigRaw) (e : IOError)
    (h : (parseSource fromStr g = Except.ok r ∧
            parseSource fromStr l = Except.error (ConfigLoadError.Error e)) ∨
         (parseSource fromStr g = Except.error (ConfigLoadError.Error e) ∧
            parseSource fromStr l = Except.ok r)) :
    (∀ cfg, Config.load fromStr scm kd g l = Except.ok cfg →
      cfg.theme = r.theme ∧ cfg.icons = r.icons ∧
        cfg.keys.supertab = r.keys.bind KeymapConfig.supertab ∧
        cfg.keys.bindings = merge_keys kd (keysBindingsOf r)) ∧
    (∀ b, mergeModeKeys b none = b) ∧
    (r.editor = none → Config.load fromStr scm kd g l = Except.ok
      { theme := r.theme, icons := r.icons
        keys := mergeKeymapConfigs (KeymapConfig.mkDefault kd) r
        editor := scm.default }) ∧
    (∀ v ed, r.editor = some v → scm.tryInto v = Except.ok ed →
      Config.load fromStr scm kd g l = Except.ok
        { theme := r.theme, icons := r.icons
          keys := mergeKeymapConfigs (KeymapConfig.mkDefault kd) r
          editor := ed }) := by
  have hload : Config.load fromStr scm kd g l = Config.loadSingle scm kd r := by
    rcases h with ⟨hg, hl⟩ | ⟨hg, hl⟩
    · exact Config.load_single_global fromStr scm kd g l r e hg hl
    · exact Config.load_single_local fromStr scm kd g l r e hg hl
  rw [hload]
  refine ⟨fun cfg hres => ?_, fun b => rfl,
    fun he => Config.loadSingle_editor_none scm kd r he,
    fun v ed he ht => Config.loadSingle_editor_some_ok scm kd r v ed he ht⟩
  obtain ⟨h1, h2, h3⟩ := Config.loadSingle_inv scm kd r cfg hres
  rw [mergeKeymapConfigs_mkDefault kd r] at h3
  exact ⟨h1, h2, by rw [h3], by rw [h3]⟩

/-- A syntax parser for the single-source scenario: the local source binds
`keys.insert.y` to `move_line_down`. -/
def fsP2 : String → Except TomlError TomlValue := fun s =>
  if s = "l" then
    Except.ok (.table [("keys", .table [("insert", .table [("y", .str "move_line_down")])])])
  else Except.error "bad toml"

/-- A default keymap with one binding in each of two modes. -/
def kdP2 : Bindings :=
  ⟨some (.node [("x", .cmd "default_x")]), some (.node []),
    some (.node [("z", .cmd "default_z")])⟩

/-- C4, witness: with a failing global source, the local insert-mode
binding is merged onto the defaults and all other modes keep the default
tries. -/
theorem claim_C4_witness :
    Config.load fsP2 unitSchema kdP2
        (Except.error (ConfigLoadError.Error "gio")) (Except.ok "l") =
      Except.ok
        { theme := none, icons := none
          keys := ⟨none, ⟨some (.node [("x", .cmd "default_x")]), some (.node []),
            some (.node [("z", .cmd "default_z"), ("y", .cmd "move_line_down")])⟩⟩
          editor := () } := by
  have h := (claim_C4_single_source fsP2 unitSchema kdP2
    (Except.error (ConfigLoadError.Error "gio")) (Except.ok "l")
    ⟨none, none, some ⟨none, ⟨none, none,
      some (.node [("y", .cmd "move_line_down")])⟩⟩, none⟩ "gio"
    (Or.inr ⟨rfl, rfl⟩)).2.2.1 rfl
  exact h

/-! Claim C8. -/

theorem merge_keys_mode (b o : Bindings) (m : Mode) :
    (merge_keys b o).mode m = mergeModeKeys (b.mode m) (o.mode m) := by
  cases m <;> rfl

theorem mergeKeymapConfigs_mode_isSome (acc : KeymapConfig) (r : ConfigRaw) (m : Mode)
    (h : ((acc.bindings).mode m).isSome = true) :
    (((mergeKeymapConfigs acc r).bindings).mode m).isSome = true := by
  cases hk : r.keys with
  | none => simpa [mergeKeymapConfigs, hk] using h
  | some kc =>
      have hb : (mergeKeymapConfigs acc r).bindings = merge_keys acc.bindings kc.bindings := by
        simp [mergeKeymapConfigs, hk]
      rw [hb, merge_keys_mode]
      exact mergeModeKeys_isSome _ _ h

/-- C8: on every successful resolution, every mode present in the
built-in default keymap is present in the resolved bindings — the defaults
are the merge base and are never fully discarded. -/
theorem claim_C8_default_modes_invariant {E : Type}
    (fromStr : String → Except TomlError TomlValue) (scm : EditorSchema E)
    (kd : Bindings) (g l : Except ConfigLoadError String) (cfg : Config E)
    (hres : Config.load fromStr scm kd g l = Except.ok cfg) :
    ∀ m : Mode, (kd.mode m).isSome = true →
      ((cfg.keys.bindings).mode m).isSome = true := by
  intro m hm
  have hd : (((KeymapConfig.mkDefault kd).bindings).mode m).isSome = true := hm
  cases hG : parseSource fromStr g with
  | ok rg =>
      cases hL : parseSource fromStr l with
      | ok rl =>
          obtain ⟨_, _, hk⟩ :=
            Config.load_ok_ok_inv fromStr scm kd g l rg rl cfg hG hL hres
          rw [hk]
          exact mergeKeymapConfigs_mode_isSome _ rl m
            (mergeKeymapConfigs_mode_isSome _ rg m hd)
      | error e =>
          cases e with
          | BadConfig m2 =>
              rw [Config.load_local_bad fromStr scm kd g l m2 hL] at hres
              simp at hres
          | Error m2 =>
              rw [Config.load_single_global fromStr scm kd g l rg m2 hG hL] at hres
              obtain ⟨_, _, hk⟩ := Config.loadSingle_inv scm kd rg cfg hres
              rw [hk]
              exact mergeKeymapConfigs_mode_isSome _ rg m hd
  | error e =>
      cases hL : parseSource fromStr l with
      | ok rl =>
          cases e with
          | BadConfig m2 =>
              rw [Config.load_global_bad fromStr scm kd g l m2 hG
                (fun m3 hc => by rw [hL] at hc; simp at hc)] at hres
              simp at hres
          | Error m2 =>
              rw [Config.load_single_local fromStr scm kd g l rl m2 hG hL] at hres
              obtain ⟨_, _, hk⟩ := Config.loadSingle_inv scm kd rl cfg hres
              rw [hk]
              exact mergeKeymapConfigs_mode_isSome _ rl m hd
      | error e2 =>
          cases e2 with
          | BadConfig m2 =>
              rw [Config.load_local_bad fromStr scm kd g l m2 hL] at hres
              simp at hres
          | Error m2 =>
              cases e with
              | BadConfig m3 =>
                  rw [Config.load_global_bad fromStr scm kd g l m3 hG
                    (fun m4 hc => by rw [hL] at hc; simp at hc)] at hres
                  simp at hres
              | Error m3 =>
                  rw [Config.load_both_ioerr fromStr scm kd g l m3 m2 hG hL] at hres
                  simp at hres

/-- The resolved configuration of the single-source witness scenario. -/
def cfgP2 : Config Unit :=
  { theme := none, icons := none
    keys := ⟨none, ⟨some (.node [("x", .cmd "default_x")]), some (.node []),
      some (.node [("z", .cmd "default_z"), ("y", .cmd "move_line_down")])⟩⟩
    editor := () }

/-- C8, witness: in the concrete single-source scenario every default
mode survives into the result. -/
theorem claim_C8_witness :
    (kdP2.mode Mode.insert).isSome = true ∧
    ((cfgP2.keys.bindings).mode Mode.insert).isSome = true ∧
    ((cfgP2.keys.bindings).mode Mode.normal).isSome = true :=
  ⟨rfl,
    claim_C8_default_modes_invariant fsP2 unitSchema kdP2
      (Except.error (ConfigLoadError.Error "gio")) (Except.ok "l") cfgP2 rfl
      Mode.insert rfl,
    claim_C8_default_modes_invariant fsP2 unitSchema kdP2
      (Except.error (ConfigLoadError.Error "gio")) (Except.ok "l") cfgP2 rfl
      Mode.normal rfl⟩

/-! Claim C3. -/

theorem mergeKeymapConfigs_chain (kd : Bindings) (rg rl : ConfigRaw) :
    mergeKeymapConfigs (mergeKeymapConfigs (KeymapConfig.mkDefault kd) rg) rl =
      ⟨(rl.keys.bind KeymapConfig.supertab).or (rg.keys.bind KeymapConfig.supertab),
        merge_keys (merge_keys kd (keysBindingsOf rg)) (keysBindingsOf rl)⟩ := by
  rw [mergeKeymapConfigs_mkDefault kd rg]
  cases hk : rl.keys with
  | none =>
      simp [mergeKeymapConfigs, hk, keysBindingsOf, merge_keys_empty_override, Option.or]
  | some kc =>
      cases hs : kc.supertab <;>
        simp [mergeKeymapConfigs, hk, hs, keysBindingsOf, Option.or]

/-- C3: with both sources parsed, the resolved keymap starts from the
built-in defaults, layers the global override and then the local override
on top (supertab replaced when an override sets it, binding trees merged
mode by mode), and merging a trie override never discards a base key the
override does not mention. -/
theorem claim_C3_keymap_layering {E : Type}
    (fromStr : String → Except TomlError TomlValue) (scm : EditorSchema E)
    (kd : Bindings) (g l : Except ConfigLoadError String) (rg rl : ConfigRaw)
    (cfg : Config E)
    (hg : parseSource fromStr g = Except.ok rg)
    (hl : parseSource fromStr l = Except.ok rl)
    (hres : Config.load fromStr scm kd g l = Except.ok cfg) :
    cfg.keys.bindings =
      merge_keys (merge_keys kd (keysBindingsOf rg)) (keysBindingsOf rl) ∧
    cfg.keys.supertab =
      (rl.keys.bind KeymapConfig.supertab).or (rg.keys.bind KeymapConfig.supertab) ∧
    (∀ bs os k, lookupKey os k = none →
      lookupKey (KeyTrie.childrenOf
        (KeyTrie.merge (KeyTrie.node bs) (KeyTrie.node os))) k = lookupKey bs k) := by
  obtain ⟨_, _, hk⟩ :=
    Config.load_ok_ok_inv fromStr scm kd g l rg rl cfg hg hl hres
  rw [mergeKeymapConfigs_chain kd rg rl] at hk
  refine ⟨by rw [hk], by rw [hk], fun bs os k hnone => ?_⟩
  rw [KeyTrie.merge_node_node]
  exact mergeAssoc_lookup_of_none KeyTrie.merge os k hnone bs

/-- A syntax parser for the layering scenario of spec property P5: the
global source binds `keys.normal.a`, the local source binds
`keys.normal.b`. -/
def fsP5 : String → Except TomlError TomlValue := fun s =>
  if s = "g" then
    Except.ok (.table [("keys", .table [("normal", .table [("a", .str "cmd1")])])])
  else if s = "l" then
    Except.ok (.table [("keys", .table [("normal", .table [("b", .str "cmd2")])])])
  else Except.error "bad toml"

/-- A default keymap whose normal mode binds an unrelated key `x`. -/
def kdP5 : Bindings :=
  ⟨some (.node [("x", .cmd "default_x")]), some (.node []), some (.node [])⟩

/-- The parsed global source of the layering scenario. -/
def rgP5 : ConfigRaw :=
  ⟨none, none, some ⟨none, ⟨some (.node [("a", .cmd "cmd1")]), none, none⟩⟩, none⟩

/-- The parsed local source of the layering scenario. -/
def rlP5 : ConfigRaw :=
  ⟨none, none, some ⟨none, ⟨some (.node [("b", .cmd "cmd2")]), none, none⟩⟩, none⟩

/-- The resolved configuration of the layering scenario: the normal-mode
trie holds the built-in default plus both overrides. -/
def cfgP5 : Config Unit :=
  { theme := none, icons := none
    keys := ⟨none, ⟨some (.node [("x", .cmd "default_x"), ("a", .cmd "cmd1"),
      ("b", .cmd "cmd2")]), some (.node []), some (.node [])⟩⟩
    editor := () }

/-- C3, witness: both the global binding `a` and the local binding `b`
end up in the normal-mode trie together with the untouched default. -/
theorem claim_C3_witness :
    Config.load fsP5 unitSchema kdP5 (Except.ok "g") (Except.ok "l") =
        Except.ok cfgP5 ∧
    cfgP5.keys.bindings =
      merge_keys (merge_keys kdP5 (keysBindingsOf rgP5)) (keysBindingsOf rlP5) ∧
    lookupKey (KeyTrie.childrenOf
      (KeyTrie.merge (KeyTrie.node [("x", KeyTrie.cmd "default_x"), ("a", KeyTrie.cmd "cmd1")])
        (KeyTrie.node [("b", KeyTrie.cmd "cmd2")]))) "a" = some (KeyTrie.cmd "cmd1") :=
  ⟨rfl,
    (claim_C3_keymap_layering fsP5 unitSchema kdP5 (Except.ok "g") (Except.ok "l")
      rgP5 rlP5 cfgP5 rfl rfl rfl).1,
    by
      rw [(claim_C3_keymap_layering fsP5 unitSchema kdP5 (Except.ok "g") (Except.ok "l")
        rgP5 rlP5 cfgP5 rfl rfl rfl).2.2
        [("x", KeyTrie.cmd "default_x"), ("a", KeyTrie.cmd "cmd1")]
        [("b", KeyTrie.cmd "cmd2")] "a" rfl]
      rfl⟩

/-! Claim C6. -/

theorem Config.load_editor_both {E : Type} (fromStr : String → Except TomlError TomlValue)
    (scm : EditorSchema E) (kd : Bindings) (g l : Except ConfigLoadError String)
    (rg rl : ConfigRaw) (gv lv : TomlValue)
    (hg : parseSource fromStr g = Except.ok rg)
    (hl : parseSource fromStr l = Except.ok rl)
    (hge : rg.editor = some gv) (hle : rl.editor = some lv) :
    Config.load fromStr scm kd g l =
      (mapErr ConfigLoadError.BadConfig (scm.tryInto (merge_toml_values gv lv 3))).bind
        (fun editor => Except.ok
          { theme := rl.theme.or rg.theme
            icons := rl.icons.or rg.icons
            keys := mergeKeymapConfigs
              (mergeKeymapConfigs (KeymapConfig.mkDefault kd) rg) rl
            editor := editor }) := by
  rw [Config.load_ok_ok fromStr scm kd g l rg rl hg hl, hge, hle]

theorem Config.load_editor_neither {E : Type} (fromStr : String → Except TomlError TomlValue)
    (scm : EditorSchema E) (kd : Bindings) (g l : Except ConfigLoadError String)
    (rg rl : ConfigRaw)
    (hg : parseSource fromStr g = Except.ok rg)
    (hl : parseSource fromStr l = Except.ok rl)
    (hge : rg.editor = none) (hle : rl.editor = none) :
    Config.load fromStr scm kd g l = Except.ok
      { theme := rl.theme.or rg.theme
        icons := rl.icons.or rg.icons
        keys := mergeKeymapConfigs (mergeKeymapConfigs (KeymapConfig.mkDefault kd) rg) rl
        editor := scm.default } := by
  rw [Config.load_ok_ok fromStr scm kd g l rg rl hg hl, hge, hle]
  rfl

theorem Config.load_editor_global_only {E : Type}
    (fromStr : String → Except TomlError TomlValue)
    (scm : EditorSchema E) (kd : Bindings) (g l : Except ConfigLoadError String)
    (rg rl : ConfigRaw) (v : TomlValue)
    (hg : parseSource fromStr g = Except.ok rg)
    (hl : parseSource fromStr l = Except.ok rl)
    (hge : rg.editor = some v) (hle : rl.editor = none) :
    Config.load fromStr scm kd g l =
      (mapErr ConfigLoadError.BadConfig (scm.tryInto v)).bind
        (fun editor => Except.ok
          { theme := rl.theme.or rg.theme
            icons := rl.icons.or rg.icons
            keys := mergeKeymapConfigs
              (mergeKeymapConfigs (KeymapConfig.mkDefault kd) rg) rl
            editor := editor }) := by
  rw [Config.load_ok_ok fromStr scm kd g l rg rl hg hl, hge, hle]

theorem Config.load_editor_local_only {E : Type}
    (fromStr : String → Except TomlError TomlValue)
    (scm : EditorSchema E) (kd : Bindings) (g l : Except ConfigLoadError String)
    (rg rl : ConfigRaw) (v : TomlValue)
    (hg : parseSource fromStr g = Except.ok rg)
    (hl : parseSource fromStr l = Except.ok rl)
    (hge : rg.editor = none) (hle : rl.editor = some v) :
    Config.load fromStr scm kd g l =
      (mapErr ConfigLoadError.BadConfig (scm.tryInto v)).bind
        (fun editor => Except.ok
          { theme := rl.theme.or rg.theme
            icons := rl.icons.or rg.icons
            keys := mergeKeymapConfigs
              (mergeKeymapConfigs (KeymapConfig.mkDefault kd) rg) rl
            editor := editor }) := by
  rw [Config.load_ok_ok fromStr scm kd g l rg rl hg hl, hge, hle]

/-- C6: with both sources parsed, the resolved editor settings come from
deserializing the depth-3 deep merge of the two editor trees when both are
set (and a failing deserialization surfaces as a `ParseFailure` even
though both raw parses succeeded), from the schema default when neither is
set, and from deserializing the single tree when exactly one is set. -/
theorem claim_C6_editor_settings_merge {E : Type}
    (fromStr : String → Except TomlError TomlValue) (scm : EditorSchema E)
    (kd : Bindings) (g l : Except ConfigLoadError String) (rg rl : ConfigRaw)
    (hg : parseSource fromStr g = Except.ok rg)
    (hl : parseSource fromStr l = Except.ok rl) :
    (∀ gv lv, rg.editor = some gv → rl.editor = some lv →
      (∀ e2, scm.tryInto (merge_toml_values gv lv 3) = Except.error e2 →
        Config.load fromStr scm kd g l = Except.error (ConfigLoadError.BadConfig e2)) ∧
      (∀ ed, scm.tryInto (merge_toml_values gv lv 3) = Except.ok ed →
        ∃ cfg, Config.load fromStr scm kd g l = Except.ok cfg ∧ cfg.editor = ed)) ∧
    (rg.editor = none → rl.editor = none →
      ∃ cfg, Config.load fromStr scm kd g l = Except.ok cfg ∧ cfg.editor = scm.default) ∧
    (∀ v, (rg.editor = some v ∧ rl.editor = none) ∨
        (rg.editor = none ∧ rl.editor = some v) →
      (∀ e2, scm.tryInto v = Except.error e2 →
        Config.load fromStr scm kd g l = Except.error (ConfigLoadError.BadConfig e2)) ∧
      (∀ ed, scm.tryInto v = Except.ok ed →
        ∃ cfg, Config.load fromStr scm kd g l = Except.ok cfg ∧ cfg.editor = ed)) := by
  refine ⟨fun gv lv hge hle => ⟨fun e2 ht => ?_, fun ed ht => ?_⟩,
    fun hge hle => ?_, fun v hv => ?_⟩
  · rw [Config.load_editor_both fromStr scm kd g l rg rl gv lv hg hl hge hle, ht]
    rfl
  · refine ⟨{ theme := rl.theme.or rg.theme, icons := rl.icons.or rg.icons,
              keys := mergeKeymapConfigs (mergeKeymapConfigs (KeymapConfig.mkDefault kd) rg) rl,
              editor := ed }, ?_, rfl⟩
    rw [Config.load_editor_both fromStr scm kd g l rg rl gv lv hg hl hge hle, ht]
    rfl
  · refine ⟨{ theme := rl.theme.or rg.theme, icons := rl.icons.or rg.icons,
              keys := mergeKeymapConfigs (mergeKeymapConfigs (KeymapConfig.mkDefault kd) rg) rl,
              editor := scm.default }, ?_, rfl⟩
    rw [Config.load_editor_neither fromStr scm kd g l rg rl hg hl hge hle]
  · rcases hv with ⟨hge, hle⟩ | ⟨hge, hle⟩
    · refine ⟨fun e2 ht => ?_, fun ed ht => ?_⟩
      · rw [Config.load_editor_global_only fromStr scm kd g l rg rl v hg hl hge hle, ht]
        rfl
      · refine ⟨{ theme := rl.theme.or rg.theme, icons := rl.icons.or rg.icons,
                  keys := mergeKeymapConfigs
                    (mergeKeymapConfigs (KeymapConfig.mkDefault kd) rg) rl,
                  editor := ed }, ?_, rfl⟩
        rw [Config.load_editor_global_only fromStr scm kd g l rg rl v hg hl hge hle, ht]
        rfl
    · refine ⟨fun e2 ht => ?_, fun ed ht => ?_⟩
      · rw [Config.load_editor_local_only fromStr scm kd g l rg rl v hg hl hge hle, ht]
        rfl
      · refine ⟨{ theme := rl.theme.or rg.theme, icons := rl.icons.or rg.icons,
                  keys := mergeKeymapConfigs
                    (mergeKeymapConfigs (KeymapConfig.mkDefault kd) rg) rl,
                  editor := ed }, ?_, rfl⟩
        rw [Config.load_editor_local_only fromStr scm kd g l rg rl v hg hl hge hle, ht]
        rfl

/-- An editor-settings schema over generic value trees whose deserializer
accepts every tree unchanged. -/
def idSchema : EditorSchema TomlValue := ⟨TomlValue.table [], Except.ok⟩

/-- An editor-settings schema whose deserializer rejects every tree. -/
def failSchema : EditorSchema Unit := ⟨(), fun _ => Except.error "schema violation"⟩

/-- The global editor tree of the settings-merge scenario. -/
def gvP6 : TomlValue :=
  .table [("o", .table [("a", .int 1), ("b", .int 2)])]

/-- The local editor tree of the settings-merge scenario. -/
def lvP6 : TomlValue := .table [("o", .table [("b", .int 3)])]

/-- A syntax parser for the settings-merge scenario: both sources set a
nested `editor` tree, conflicting at the leaf `o.b`. -/
def fsP6 : String → Except TomlError TomlValue := fun s =>
  if s = "g" then Except.ok (.table [("editor", gvP6)])
  else if s = "l" then Except.ok (.table [("editor", lvP6)])
  else Except.error "bad toml"

/-- The parsed global source of the settings-merge scenario. -/
def rgP6 : ConfigRaw := ⟨none, none, none, some gvP6⟩

/-- The parsed local source of the settings-merge scenario. -/
def rlP6 : ConfigRaw := ⟨none, none, none, some lvP6⟩

/-- C6, witness: a deserialization failure of the merged tree surfaces as
a `ParseFailure` although both raw parses succeeded, and with an accepting
schema the resolved editor tree is the depth-3 deep merge in which the
local leaf `o.b = 3` overrides the global one while the global sibling
`o.a = 1` survives. -/
theorem claim_C6_witness :
    Config.load fsP6 failSchema kd0 (Except.ok "g") (Except.ok "l") =
        Except.error (ConfigLoadError.BadConfig "schema violation") ∧
    Config.load fsP6 idSchema kd0 (Except.ok "g") (Except.ok "l") =
        Except.ok
          { theme := none, icons := none, keys := KeymapConfig.mkDefault kd0,
            editor := TomlValue.table
              [("o", TomlValue.table [("a", TomlValue.int 1), ("b", TomlValue.int 3)])] } :=
  ⟨((claim_C6_editor_settings_merge fsP6 failSchema kd0 (Except.ok "g") (Except.ok "l")
      rgP6 rlP6 rfl rfl).1 gvP6 lvP6 rfl rfl).1 "schema violation" rfl, rfl⟩

/-! Claim C7. -/

theorem ConfigRaw.fromToml_unknown (es : List (String × TomlValue))
    (hall : es.all (fun p =>
      p.1 == "theme" || p.1 == "icons" || p.1 == "keys" || p.1 == "editor") = false) :
    ConfigRaw.fromToml (.table es) = Except.error "unknown top-level field" := by
  simp [ConfigRaw.fromToml, hall]

/-- C7: a syntactically valid source whose top-level table holds any key
other than `theme`, `icons`, `keys`, `editor` fails strict deserialization,
and `Config::load` then returns a `ParseFailure` whichever position the
source occupies and whatever the other source is. -/
theorem claim_C7_strict_top_level (es : List (String × TomlValue))
    (p : String × TomlValue) (hp : p ∈ es)
    (hk : ¬(p.1 = "theme" ∨ p.1 = "icons" ∨ p.1 = "keys" ∨ p.1 = "editor")) :
    (∃ e, ConfigRaw.fromToml (.table es) = Except.error e) ∧
    (∀ (E : Type) (fromStr : String → Except TomlError TomlValue)
        (scm : EditorSchema E) (kd : Bindings) (s : String)
        (other : Except ConfigLoadError String),
      fromStr s = Except.ok (.table es) →
        (∃ e, Config.load fromStr scm kd (Except.ok s) other =
          Except.error (ConfigLoadError.BadConfig e)) ∧
        (∃ e, Config.load fromStr scm kd other (Except.ok s) =
          Except.error (ConfigLoadError.BadConfig e))) := by
  have hall : es.all (fun p =>
      p.1 == "theme" || p.1 == "icons" || p.1 == "keys" || p.1 == "editor") = false := by
    cases hb : es.all (fun p =>
        p.1 == "theme" || p.1 == "icons" || p.1 == "keys" || p.1 == "editor") with
    | false => rfl
    | true =>
        exfalso
        have := List.all_eq_true.mp hb p hp
        simp only [Bool.or_eq_true, beq_iff_eq] at this
        exact hk (by tauto)
  refine ⟨⟨"unknown top-level field", ConfigRaw.fromToml_unknown es hall⟩, ?_⟩
  intro E fromStr scm kd s other hfs
  have hps : parseSource fromStr (Except.ok s) =
      Except.error (ConfigLoadError.BadConfig "unknown top-level field") := by
    show mapErr ConfigLoadError.BadConfig ((fromStr s).bind ConfigRaw.fromToml) = _
    rw [hfs]
    show mapErr ConfigLoadError.BadConfig (ConfigRaw.fromToml (.table es)) = _
    rw [ConfigRaw.fromToml_unknown es hall]
    rfl
  constructor
  · cases hO : parseSource fromStr other with
    | ok r =>
        exact ⟨"unknown top-level field",
          Config.load_global_bad fromStr scm kd _ other _ hps
            (fun m2 hc => by rw [hO] at hc; simp at hc)⟩
    | error e =>
        cases e with
        | BadConfig m2 =>
            exact ⟨m2, Config.load_local_bad fromStr scm kd _ other m2 hO⟩
        | Error m2 =>
            exact ⟨"unknown top-level field",
              Config.load_global_bad fromStr scm kd _ other _ hps
                (fun m3 hc => by rw [hO] at hc; simp at hc)⟩
  · exact ⟨"unknown top-level field",
      Config.load_local_bad fromStr scm kd other _ _ hps⟩

/-- A syntax parser producing a table with the unknown top-level key
`themes`. -/
def fsUnknown : String → Except TomlError TomlValue :=
  fun _ => Except.ok (.table [("themes", .str "x")])

/-- C7, witness: the unknown key `themes` is rejected and the failure is
propagated by the resolver over a healthy other source. -/
theorem claim_C7_witness :
    (∃ e, ConfigRaw.fromToml (.table [("themes", TomlValue.str "x")]) =
      Except.error e) ∧
    (∃ e, Config.load fsUnknown unitSchema kd0 (Except.ok "g")
      (Except.error (ConfigLoadError.Error "lio")) =
        Except.error (ConfigLoadError.BadConfig e)) :=
  ⟨(claim_C7_strict_top_level [("themes", TomlValue.str "x")]
      ("themes", TomlValue.str "x") (by simp) (by decide)).1,
    ((claim_C7_strict_top_level [("themes", TomlValue.str "x")]
        ("themes", TomlValue.str "x") (by simp) (by decide)).2 Unit fsUnknown
      unitSchema kd0 "g" (Except.error (ConfigLoadError.Error "lio")) rfl).1⟩

/-! Claim C9. -/

/-- Well-formedness of a raw source's keys override: each mode trie has
distinct keys at every node, as the map-backed TOML parse guarantees. -/
def keysWf (r : ConfigRaw) : Bool :=
  match r.keys with
  | none => true
  | some kc => kc.bindings.wfAll

/-- Well-formedness of a raw source's editor tree: distinct keys at every
table level, as the TOML parse guarantees. -/
def editorWf (r : ConfigRaw) : Bool :=
  match r.editor with
  | none => true
  | some v => TomlValue.wf v

theorem option_or_self {α : Type} (o : Option α) : o.or o = o := by
  cases o <;> rfl

theorem mergeKeymapConfigs_absorb (acc : KeymapConfig) (r : ConfigRaw)
    (hwk : keysWf r = true) :
    mergeKeymapConfigs (mergeKeymapConfigs acc r) r = mergeKeymapConfigs acc r := by
  cases hkc : r.keys with
  | none => simp [mergeKeymapConfigs, hkc]
  | some kc =>
      have hwf : kc.bindings.wfAll = true := by
        unfold keysWf at hwk
        rw [hkc] at hwk
        exact hwk
      cases hs : kc.supertab with
      | some st => simp [mergeKeymapConfigs, hkc, hs, merge_keys_absorb _ _ hwf]
      | none => simp [mergeKeymapConfigs, hkc, hs, merge_keys_absorb _ _ hwf]

/-- C9: resolving a parseable source against an `IOFailure` gives the
same result as resolving it against an identical copy of itself — the
self-merge is a no-op on theme, icons and keys, and on the editor tree
since the depth-bounded merge of a well-formed tree with itself is that
tree. -/
theorem claim_C9_self_merge_idempotent {E : Type}
    (fromStr : String → Except TomlError TomlValue) (scm : EditorSchema E)
    (kd : Bindings) (s : String) (e : IOError) (r : ConfigRaw)
    (hr : parseSource fromStr (Except.ok s) = Except.ok r)
    (hwk : keysWf r = true) (hwe : editorWf r = true) :
    Config.load fromStr scm kd (Except.ok s) (Except.error (ConfigLoadError.Error e)) =
      Config.load fromStr scm kd (Except.ok s) (Except.ok s) := by
  rw [Config.load_single_global fromStr scm kd (Except.ok s)
    (Except.error (ConfigLoadError.Error e)) r e hr
    (parseSource_error fromStr (ConfigLoadError.Error e))]
  rw [Config.load_ok_ok fromStr scm kd (Except.ok s) (Except.ok s) r r hr hr]
  unfold Config.loadSingle
  simp only [mergeKeymapConfigs_absorb (KeymapConfig.mkDefault kd) r hwk,
    option_or_self]
  cases he : r.editor with
  | none => rfl
  | some v =>
      have hv : TomlValue.wf v = true := by
        unfold editorWf at hwe
        rw [he] at hwe
        exact hwe
      show (mapErr ConfigLoadError.BadConfig (scm.tryInto v)).bind
          (fun editor => Except.ok (Config.mk r.theme r.icons
            (mergeKeymapConfigs (KeymapConfig.mkDefault kd) r) editor)) =
        (mapErr ConfigLoadError.BadConfig
            (scm.tryInto (merge_toml_values v v 3))).bind
          (fun editor => Except.ok (Config.mk r.theme r.icons
            (mergeKeymapConfigs (KeymapConfig.mkDefault kd) r) editor))
      rw [merge_toml_values_self 3 v hv]

/-- A syntax parser for the idempotence scenario: one source setting all
four top-level fields. -/
def fsC9 : String → Except TomlError TomlValue := fun _ =>
  Except.ok (.table [("theme", .str "t"),
    ("keys", .table [("normal", .table [("a", .str "c1")])]),
    ("editor", .table [("x", .int 1)])])

/-- The parsed source of the idempotence scenario. -/
def rC9 : ConfigRaw :=
  ⟨some "t", none, some ⟨none, ⟨some (.node [("a", .cmd "c1")]), none, none⟩⟩,
    some (.table [("x", .int 1)])⟩

/-- C9, witness: at a concrete source with theme, keys and editor set,
resolving against an `IOFailure` equals resolving against a copy. -/
theorem claim_C9_witness :
    parseSource fsC9 (Except.ok "s") = Except.ok rC9 ∧
    keysWf rC9 = true ∧ editorWf rC9 = true ∧
    Config.load fsC9 idSchema kdP5 (Except.ok "s")
        (Except.error (ConfigLoadError.Error "io")) =
      Config.load fsC9 idSchema kdP5 (Except.ok "s") (Except.ok "s") :=
  ⟨rfl, rfl, rfl,
    claim_C9_self_merge_idempotent fsC9 idSchema kdP5 "s" "io" rC9 rfl rfl rfl⟩

end HelixConfig
